import Mathlib

/-
  Verification of the Tardis data-cleaning pipeline (SNCF train-delay EDA).

  The definitions below are a shallow embedding of the cleaning code of
  `tardis_eda.ipynb`.  Values of a numeric cell are modelled by `Option ℚ`
  (`none` stands for a missing value, pandas `NaN`/`NaT`); external library
  parsers (pandas flexible date parsing, the fuzzywuzzy similarity scorer)
  are parameters of the definitions that delegate to them, while every piece
  of logic written in the repository itself is embedded concretely.
-/

namespace Tardis

/-! ### Date repair

The notebook repairs the `Date` column with

  `re.sub(r"(\d{4})([^-])(\d{2})", r"\1-\3", x) if re.match(r"\d{4}[^-]\d{2}", x) else x`

`re.match` tests the pattern at the start of the string; the pattern consumes
four digits, one character that is not a hyphen, and two digits (seven
characters in total).  `re.sub` rewrites every non-overlapping occurrence,
scanning left to right. -/

/-- One scan step of `re.sub(r"(\d{4})([^-])(\d{2})", r"\1-\3", ·)` on the
character list of the string: at each position, if the seven-character
pattern (four digits, a non-hyphen, two digits) matches, emit the
replacement `\1-\3` and continue after the match, otherwise emit the
character and advance by one. -/
def dateSub : List Char → List Char
  | c1 :: c2 :: c3 :: c4 :: c5 :: c6 :: c7 :: rest =>
    if c1.isDigit && c2.isDigit && c3.isDigit && c4.isDigit
        && (c5 != '-') && c6.isDigit && c7.isDigit then
      c1 :: c2 :: c3 :: c4 :: '-' :: c6 :: c7 :: dateSub rest
    else
      c1 :: dateSub (c2 :: c3 :: c4 :: c5 :: c6 :: c7 :: rest)
  | c :: rest => c :: dateSub rest
  | [] => []

/-- `re.match(r"\d{4}[^-]\d{2}", x)`: does the seven-character pattern match
at the start of the string? -/
def dateMatch : List Char → Bool
  | c1 :: c2 :: c3 :: c4 :: c5 :: c6 :: c7 :: _ =>
    c1.isDigit && c2.isDigit && c3.isDigit && c4.isDigit
      && (c5 != '-') && c6.isDigit && c7.isDigit
  | _ => false

/-- The date-repair lambda applied to each entry of `df["Date"]`:
substitute only when `re.match` succeeds at the start. -/
def repairDate (s : String) : String :=
  if dateMatch s.data then String.mk (dateSub s.data) else s

/-! ### Fuzzy corrector

`correct_station_from_top` delegates the similarity computation to
`fuzzywuzzy.process.extractOne(name, top_list)`, an external library call.
We model the scorer as a parameter `scorer : String → String → ℕ` and embed
`extractOne` as the library computes it: score every candidate and return
the first candidate attaining the maximal score (Python's `max` keeps the
first maximal element), or `None` on an empty candidate list.  A missing
input (`pd.isna`) is modelled by `none : Option String`; the call crashes
(`TypeError` when unpacking `None`) on an empty reference list, modelled by
`Except.error ()`.  The returned `Bool` records whether the `print` call
inside the function fired. -/

/-- Left fold of Python's `max(..., key=score)` over the remaining
candidates: replace the current best only on a strictly greater score, so
the first maximal candidate wins. -/
def bestFrom (scorer : String → String → ℕ) (query : String)
    (best : String × ℕ) : List String → String × ℕ
  | [] => best
  | c :: cs =>
    bestFrom scorer query
      (if best.2 < scorer query c then (c, scorer query c) else best) cs

/-- `process.extractOne(query, choices)`: the best match and its score, the
first one on ties; `none` when the candidate list is empty. -/
def extractOne (scorer : String → String → ℕ) (query : String) :
    List String → Option (String × ℕ)
  | [] => none
  | c :: cs => some (bestFrom scorer query (c, scorer query c) cs)

/-- `correct_station_from_top(name, top_list, threshold=75)`.  Returns the
corrected value together with whether the log line was printed.  The source:
missing input is returned as is; otherwise the best match and score are
computed; the message `Correcting '{name}' to '{match}' ...` is printed when
`score < threshold`; the match is returned when `score >= threshold`,
otherwise the original name. -/
def correct_station_from_top (scorer : String → String → ℕ)
    (name : Option String) (topList : List String) (threshold : ℕ := 75) :
    Except Unit (Option String × Bool) :=
  match name with
  | none => .ok (none, false)
  | some n =>
    match extractOne scorer n topList with
    | none => .error ()
    | some (m, score) =>
      .ok (some (if threshold ≤ score then m else n), decide (score < threshold))

/-! ### Numeric sanitizer

The cleanup loop runs over the declared `numeric_columns`.  A raw cell is a
numeric token, an invalid token, or already missing; `pd.to_numeric(...,
errors="coerce")` maps invalid tokens to `NaN`.  A pandas comparison against
`NaN` is `False`, so missing cells are untouched by every masked assignment;
this is captured by `Option.map`/`Option.bind`. -/

/-- A raw cell of a numeric column before coercion. -/
inductive RawCell where
  | num (q : ℚ)
  | invalid
  | missing
deriving DecidableEq

/-- `pd.to_numeric(·, errors="coerce")` on one cell: numeric tokens keep
their value, invalid tokens and missing cells become missing. -/
def toNumeric : RawCell → Option ℚ
  | .num q => some q
  | .invalid => none
  | .missing => none

/-- Python's substring test `needle in hay` on column names. -/
def strContains (hay needle : String) : Bool :=
  hay.data.tails.any (fun t => needle.data.isPrefixOf t)

/-- `numeric_columns`, the declared numeric columns of the dataset. -/
def numeric_columns : List String :=
  [ "Average journey time",
    "Number of scheduled trains",
    "Number of cancelled trains",
    "Number of trains delayed at departure",
    "Number of trains delayed at arrival",
    "Number of trains delayed > 15min",
    "Number of trains delayed > 30min",
    "Number of trains delayed > 60min",
    "Average delay of late trains at departure",
    "Average delay of all trains at departure",
    "Average delay of late trains at arrival",
    "Average delay of all trains at arrival",
    "Average delay of trains > 15min (if competing with flights)",
    "Pct delay due to external causes",
    "Pct delay due to infrastructure",
    "Pct delay due to traffic management",
    "Pct delay due to rolling stock",
    "Pct delay due to station management and equipment reuse",
    "Pct delay due to passenger handling (crowding, disabled persons, connections)" ]

/-- The body of the cleanup loop on one cell of column `col`, in source
order: coerce to numeric; set negative values to `0.0`; if the column name
contains `"Average"`, set values above `500.0` to `NaN`; if the column
name contains `"Pct"`, cap values above `100` at `100.0`, then floor
negative values at `0.0`. -/
def cleanNumericCell (col : String) (c : RawCell) : Option ℚ :=
  let v0 := toNumeric c
  let v1 := v0.map (fun x => if x < 0 then 0 else x)
  let v2 := if strContains col "Average" then
      v1.bind (fun x => if 500 < x then none else some x)
    else v1
  let v3 := if strContains col "Pct" then
      (v2.map (fun x => if 100 < x then 100 else x)).map (fun x => if x < 0 then 0 else x)
    else v2
  v3

/-! ### Date parsing and row filtering

After the repair, the notebook keeps only rows with
`pd.to_datetime(x, errors="coerce") <= datetime.now()` (a `NaT` comparison
is `False`), converts the column with `safe_date_convert` (strict `"%Y-%m"`
parse, then flexible fallback, then `NaT`), and finally keeps rows whose
converted date is not `NaT`.  The two library parsers are parameters
`strict flex : String → Option ℤ`, a timestamp being modelled by `ℤ`. -/

/-- `safe_date_convert(date_str)` over the two library parsers: empty or
`"N/A"` input gives `NaT`; otherwise the strict `"%Y-%m"` parse, falling
back to flexible parsing, and `NaT` when both raise. -/
def safe_date_convert (strict flex : String → Option ℤ) (s : String) : Option ℤ :=
  if s = "" || s = "N/A" then none
  else match strict s with
    | some d => some d
    | none => flex s

/-- The date portion of the cleaning pipeline on the list of `Date` strings,
each row tagged by its original string: repair each date; keep rows whose
flexible parse is at most `now` (`NaT` fails the comparison); convert with
`safe_date_convert`; keep rows whose converted date is present.  The result
pairs each surviving row's original string with its converted date. -/
def cleanDates (strict flex : String → Option ℤ) (now : ℤ)
    (dates : List String) : List (String × ℤ) :=
  (((dates.map (fun s => (s, repairDate s))).filter
      (fun p => match flex p.2 with
        | some d => decide (d ≤ now)
        | none => false)).filterMap
    (fun p => (safe_date_convert strict flex p.2).map (fun d => (p.1, d))))

/-! ### Derived feature -/

/-- `df["Is_Significantly_Delayed"] = (df["Average delay of all trains at
arrival"] > 15).astype(int)`, on one (median-filled, hence present) cell. -/
def is_Significantly_Delayed (delay : ℚ) : ℤ :=
  if 15 < delay then 1 else 0

/-! ### Concrete scorer instantiations

Used to evaluate the fuzzy corrector at concrete inputs.  `fullProcess`
reflects fuzzywuzzy's `full_process` preprocessing (lowercase, replace
non-alphanumeric characters by spaces); `WRatio` gives two strings that
agree after this preprocessing the maximal score `100`, and scores are
always at most `100`.  `normScorer` realises exactly that behaviour on the
inputs we evaluate; `exactScorer` is the degenerate scorer giving `100` to
equal strings only. -/

/-- Lowercase and replace non-alphanumeric characters by spaces, as
fuzzywuzzy's `full_process` does before scoring. -/
def fullProcess (s : String) : String :=
  String.mk (s.data.map (fun c => if c.isAlphanum then c.toLower else ' '))

/-- A similarity scorer with `WRatio`'s behaviour on strings that agree
after `full_process` preprocessing: such pairs score `100`, others `0`. -/
def normScorer (a b : String) : ℕ :=
  if fullProcess a = fullProcess b then 100 else 0

/-- The degenerate similarity scorer: `100` for equal strings, else `0`. -/
def exactScorer (a b : String) : ℕ :=
  if a = b then 100 else 0

/-- A concrete flexible parser used to evaluate the date pipeline: it
parses only the string "2030-01", to timestamp `999`. -/
def flexDemo (s : String) : Option ℤ :=
  if s = "2030-01" then some 999 else none

/-- A concrete strict parser that always fails, used to evaluate the date
pipeline. -/
def strictNone (_ : String) : Option ℤ := none

/-! ## Sanity evaluations -/

example : repairDate "2023.04" = "2023-04" := by decide
example : repairDate "202304" = "202304" := by decide
example : repairDate "2023-04" = "2023-04" := by decide
example : strContains "Average journey time" "Average" = true := by decide
example : strContains "Pct delay due to infrastructure" "Pct" = true := by decide
example : strContains "Number of scheduled trains" "Average" = false := by decide
example : cleanNumericCell "Average journey time" (.num 600) = none := rfl
example : cleanNumericCell "Pct delay due to infrastructure" (.num 120) = some 100 := rfl
example : cleanNumericCell "Number of cancelled trains" (.num (-3)) = some 0 := rfl
example : cleanNumericCell "Pct delay due to rolling stock" RawCell.invalid = none := rfl

/-! ## Helper lemmas about the fuzzy matcher -/

theorem bestFrom_fst_mem (scorer : String → String → ℕ) (query : String)
    (best : String × ℕ) (l : List String) :
    (bestFrom scorer query best l).1 = best.1 ∨
      (bestFrom scorer query best l).1 ∈ l := by
  induction l generalizing best with
  | nil => exact Or.inl rfl
  | cons c cs ih =>
    simp only [bestFrom]
    by_cases hc : best.2 < scorer query c
    · rw [if_pos hc]
      rcases ih (c, scorer query c) with h | h
      · exact Or.inr (by simp [h])
      · exact Or.inr (List.mem_cons_of_mem _ h)
    · rw [if_neg hc]
      rcases ih best with h | h
      · exact Or.inl h
      · exact Or.inr (List.mem_cons_of_mem _ h)

theorem bestFrom_score_eq (scorer : String → String → ℕ) (query : String)
    (best : String × ℕ) (l : List String) (h : best.2 = scorer query best.1) :
    (bestFrom scorer query best l).2 = scorer query (bestFrom scorer query best l).1 := by
  induction l generalizing best with
  | nil => exact h
  | cons c cs ih =>
    simp only [bestFrom]
    by_cases hc : best.2 < scorer query c
    · rw [if_pos hc]
      exact ih _ rfl
    · rw [if_neg hc]
      exact ih _ h

theorem bestFrom_init_le (scorer : String → String → ℕ) (query : String)
    (best : String × ℕ) (l : List String) :
    best.2 ≤ (bestFrom scorer query best l).2 := by
  induction l generalizing best with
  | nil => exact le_refl _
  | cons c cs ih =>
    simp only [bestFrom]
    by_cases hc : best.2 < scorer query c
    · exact le_trans (le_of_lt hc) (by simpa [hc] using ih (c, scorer query c))
    · simpa [hc] using ih best

theorem bestFrom_mem_le (scorer : String → String → ℕ) (query : String)
    (best : String × ℕ) (l : List String) (c : String) (hc : c ∈ l) :
    scorer query c ≤ (bestFrom scorer query best l).2 := by
  induction l generalizing best with
  | nil => cases hc
  | cons d ds ih =>
    simp only [bestFrom]
    rcases List.mem_cons.mp hc with h | h
    · subst h
      by_cases hd : best.2 < scorer query c
      · simpa [hd] using bestFrom_init_le scorer query (c, scorer query c) ds
      · exact le_trans (le_of_not_lt hd)
          (by simpa [hd] using bestFrom_init_le scorer query best ds)
    · by_cases hd : best.2 < scorer query d <;> simp [hd] <;> exact ih _ h

/-- Full characterisation of `extractOne` on a non-empty candidate list:
it yields a candidate of the list together with its own score, and that
score dominates the score of every candidate. -/
theorem extractOne_spec (scorer : String → String → ℕ) (query : String)
    (l : List String) (hl : l ≠ []) :
    ∃ m s, extractOne scorer query l = some (m, s) ∧ m ∈ l ∧
      s = scorer query m ∧ ∀ c ∈ l, scorer query c ≤ s := by
  cases l with
  | nil => exact absurd rfl hl
  | cons c cs =>
    refine ⟨(bestFrom scorer query (c, scorer query c) cs).1,
      (bestFrom scorer query (c, scorer query c) cs).2, rfl, ?_, ?_, ?_⟩
    · rcases bestFrom_fst_mem scorer query (c, scorer query c) cs with h | h
      · simp [h]
      · exact List.mem_cons_of_mem _ h
    · exact bestFrom_score_eq scorer query (c, scorer query c) cs rfl
    · intro d hd
      rcases List.mem_cons.mp hd with h | h
      · subst h
        exact bestFrom_init_le scorer query (d, scorer query d) cs
      · exact bestFrom_mem_le scorer query (c, scorer query c) cs d h

/-! ## Helper lemma about the numeric sanitizer -/

/-- Bounds satisfied by every present value produced by the cleanup loop. -/
theorem cleanNumericCell_bounds (col : String) (c : RawCell) (q : ℚ)
    (h : cleanNumericCell col c = some q) :
    0 ≤ q ∧ (strContains col "Pct" = true → q ≤ 100) ∧
      (strContains col "Average" = true → q ≤ 500) := by
  cases c with
  | invalid => simp [cleanNumericCell, toNumeric] at h
  | missing => simp [cleanNumericCell, toNumeric] at h
  | num x =>
    cases ha : strContains col "Average" <;> cases hp : strContains col "Pct" <;>
        simp only [cleanNumericCell, toNumeric, ha, hp, Bool.false_eq_true,
          if_false, if_true, Option.map_some', Option.some_bind] at h <;>
        simp only [ha, hp, Bool.false_eq_true, Bool.true_eq_false, false_implies,
          true_implies, and_true, true_and]
    · rw [Option.some.injEq] at h
      subst h
      split_ifs with h0 <;> linarith
    · rw [Option.some.injEq] at h
      subst h
      refine ⟨?_, ?_⟩ <;> split_ifs <;> linarith
    · split_ifs at h <;>
        first
          | exact Option.noConfusion h
          | (rw [Option.some.injEq] at h
             subst h
             refine ⟨?_, ?_⟩ <;> linarith)
    · split_ifs at h <;>
        (try simp only [Option.map_none', Option.map_some'] at h) <;>
        first
          | exact Option.noConfusion h
          | (rw [Option.some.injEq] at h
             subst h
             refine ⟨?_, ?_, ?_⟩ <;> split_ifs <;> linarith)

/-! ## Claims -/

/-- C1: evaluation of the date-repair lambda at the claimed inputs.  The
six-character numeric string "202304" is NOT repaired: the regex
`\d{4}[^-]\d{2}` demands a separator character between the year and month
digits, so it only matches seven-character forms.  "2023-04" passes through
unchanged, and the seven-character "2023.04" is repaired to "2023-04". -/
theorem repairDate_claim_eval :
    repairDate "202304" = "202304" ∧ repairDate "2023-04" = "2023-04" ∧
      repairDate "2023.04" = "2023-04" :=
  ⟨by decide, by decide, by decide⟩

/-- C2: after the numeric cleanup pass, for every declared numeric column,
every present value of a `"Pct"`-named column lies in `[0, 100]`, every
present value of an `"Average"`-named column is at most `500`, and no
column holds a negative value. -/
theorem sanitized_invariant (col : String) (c : RawCell) (q : ℚ)
    (_hcol : col ∈ numeric_columns) (h : cleanNumericCell col c = some q) :
    0 ≤ q ∧ (strContains col "Pct" = true → 0 ≤ q ∧ q ≤ 100) ∧
      (strContains col "Average" = true → q ≤ 500) := by
  obtain ⟨h0, h1, h2⟩ := cleanNumericCell_bounds col c q h
  exact ⟨h0, fun hp => ⟨h0, h1 hp⟩, h2⟩

theorem sanitized_invariant_witness :
    ("Pct delay due to external causes" ∈ numeric_columns) ∧
      cleanNumericCell "Pct delay due to external causes" (.num 142) = some 100 ∧
      (0 ≤ (100 : ℚ) ∧
        (strContains "Pct delay due to external causes" "Pct" = true →
          0 ≤ (100 : ℚ) ∧ (100 : ℚ) ≤ 100) ∧
        (strContains "Pct delay due to external causes" "Average" = true →
          (100 : ℚ) ≤ 500)) :=
  ⟨by decide, rfl,
    sanitized_invariant "Pct delay due to external causes" (.num 142) 100
      (by decide) rfl⟩

/-- C3: for a present input name and a non-empty reference list, the
corrector computes the best match (a member of the list whose score
dominates every candidate's score) together with its score, returns the
match when the score is at least 75, returns the input unchanged when the
score is below 75, and passes a missing input through unchanged. -/
theorem correct_station_threshold (scorer : String → String → ℕ)
    (n : String) (top : List String) (htop : top ≠ []) :
    correct_station_from_top scorer none top 75 = .ok (none, false) ∧
      ∃ m s, extractOne scorer n top = some (m, s) ∧ m ∈ top ∧
        s = scorer n m ∧ (∀ c ∈ top, scorer n c ≤ s) ∧
        (75 ≤ s → correct_station_from_top scorer (some n) top 75 =
          .ok (some m, false)) ∧
        (s < 75 → correct_station_from_top scorer (some n) top 75 =
          .ok (some n, true)) := by
  obtain ⟨m, s, he, hm, hs, hdom⟩ := extractOne_spec scorer n top htop
  refine ⟨rfl, m, s, he, hm, hs, hdom, ?_, ?_⟩
  · intro h75
    have hd : decide (s < 75) = false := decide_eq_false (Nat.not_lt.mpr h75)
    simp [correct_station_from_top, he, h75, hd]
  · intro h75
    have hd : decide (s < 75) = true := decide_eq_true h75
    have hn : ¬ 75 ≤ s := Nat.not_le.mpr h75
    simp [correct_station_from_top, he, hn, hd]

theorem correct_station_threshold_witness :
    (["Paris"] ≠ ([] : List String)) ∧
      correct_station_from_top exactScorer (some "Paris") ["Paris"] 75 =
        .ok (some "Paris", false) := by
  refine ⟨by decide, ?_⟩
  obtain ⟨-, m, s, he, -, -, -, h1, -⟩ :=
    correct_station_threshold exactScorer "Paris" ["Paris"] (by decide)
  have hms : extractOne exactScorer "Paris" ["Paris"] = some ("Paris", 100) := by decide
  rw [hms] at he
  injection he with he2
  injection he2 with hm hs
  subst hm
  subst hs
  exact h1 (by decide)

/-- C4: the cleanup steps on one cell, in source order: coercion sends
invalid tokens and missing cells to missing; negative numbers become `0`;
in an `"Average"`-named column, values above `500` become missing rather
than being clamped; in a `"Pct"`-named column, values above `100` are
capped at `100`; in-range values pass through unchanged. -/
theorem clean_numeric_steps (col : String) (x : ℚ) :
    cleanNumericCell col .invalid = none ∧
    cleanNumericCell col .missing = none ∧
    (x < 0 → cleanNumericCell col (.num x) = some 0) ∧
    (strContains col "Average" = true → 500 < x →
      cleanNumericCell col (.num x) = none) ∧
    (strContains col "Pct" = true → strContains col "Average" = false →
      100 < x → cleanNumericCell col (.num x) = some 100) ∧
    (0 ≤ x → x ≤ 100 → cleanNumericCell col (.num x) = some x) ∧
    (strContains col "Pct" = false → 0 ≤ x → x ≤ 500 →
      cleanNumericCell col (.num x) = some x) := by
  refine ⟨?_, ?_, ?_, ?_, ?_, ?_, ?_⟩
  · simp [cleanNumericCell, toNumeric]
  · simp [cleanNumericCell, toNumeric]
  · intro hx
    cases ha : strContains col "Average" <;> cases hp : strContains col "Pct" <;>
      simp [cleanNumericCell, toNumeric, ha, hp, hx]
  · intro ha hx
    cases hp : strContains col "Pct" <;>
      simp [cleanNumericCell, toNumeric, ha, hp, hx,
        show ¬ x < 0 by linarith]
  · intro hp ha hx
    simp [cleanNumericCell, toNumeric, ha, hp, hx,
      show ¬ x < 0 by linarith, show ¬ (100 : ℚ) < 0 by norm_num]
  · intro h0 h100
    cases ha : strContains col "Average" <;> cases hp : strContains col "Pct" <;>
      simp [cleanNumericCell, toNumeric, ha, hp, not_lt.mpr h0,
        not_lt.mpr h100, show ¬ (500 : ℚ) < x by linarith]
  · intro hp h0 h500
    cases ha : strContains col "Average" <;>
      simp [cleanNumericCell, toNumeric, ha, hp, not_lt.mpr h0,
        not_lt.mpr h500]

theorem clean_numeric_steps_witness :
    (strContains "Pct delay due to infrastructure" "Pct" = true ∧
      strContains "Pct delay due to infrastructure" "Average" = false ∧
      (100 : ℚ) < 120) ∧
    cleanNumericCell "Pct delay due to infrastructure" (.num 120) = some 100 :=
  ⟨⟨by decide, by decide, by norm_num⟩,
    (clean_numeric_steps "Pct delay due to infrastructure" 120).2.2.2.2.1
      (by decide) (by decide) (by norm_num)⟩

/-- C5: a row whose repaired date string parses (by the filter's flexible
parser) to a date later than `now`, and a row whose repaired date string
`safe_date_convert` cannot parse, never survives the date-cleaning
pipeline. -/
theorem future_or_unparsable_dropped (strict flex : String → Option ℤ)
    (now : ℤ) (dates : List String) (s : String) (hs : s ∈ dates)
    (hbad : (∃ d, flex (repairDate s) = some d ∧ now < d) ∨
      safe_date_convert strict flex (repairDate s) = none) :
    ∀ d, (s, d) ∉ cleanDates strict flex now dates := by
  intro d hd
  unfold cleanDates at hd
  rw [List.mem_filterMap] at hd
  obtain ⟨p, hp, hf⟩ := hd
  rw [List.mem_filter] at hp
  obtain ⟨hp1, hp2⟩ := hp
  rw [List.mem_map] at hp1
  obtain ⟨s', hs', rfl⟩ := hp1
  rcases hmap : safe_date_convert strict flex (repairDate s') with _ | d'
  · rw [hmap] at hf
    exact Option.noConfusion hf
  · rw [hmap] at hf
    rw [Option.map_some', Option.some.injEq, Prod.mk.injEq] at hf
    obtain ⟨rfl, rfl⟩ := hf
    rcases hbad with ⟨d0, hflex, hnow⟩ | hnone
    · rcases hfl : flex (repairDate s') with _ | d1
      · rw [hfl] at hflex
        exact Option.noConfusion hflex
      · rw [hfl] at hflex
        injection hflex with h1
        subst h1
        simp only [hfl] at hp2
        have := of_decide_eq_true hp2
        omega
    · rw [hmap] at hnone
      exact Option.noConfusion hnone

theorem future_dropped_witness :
    ("2030-01" ∈ ["2030-01"]) ∧
      ("2030-01", (999 : ℤ)) ∉ cleanDates strictNone flexDemo 0 ["2030-01"] :=
  ⟨by decide,
    future_or_unparsable_dropped strictNone flexDemo 0 ["2030-01"] "2030-01"
      (by decide) (Or.inl ⟨999, by decide, by decide⟩) 999⟩

/-- C6 (counterexample to the claim as stated): the name "Paris-Lyon" is an
element of the reference list, yet correction maps it to the earlier list
element "Paris Lyon".  The scorer instantiation reflects WRatio's behaviour
of scoring 100 for strings that agree after `full_process` preprocessing,
and the matcher keeps the first candidate on tied scores. -/
theorem canonical_name_rewritten :
    ("Paris-Lyon" ∈ ["Paris Lyon", "Paris-Lyon"]) ∧
      correct_station_from_top normScorer (some "Paris-Lyon")
        ["Paris Lyon", "Paris-Lyon"] 75 = .ok (some "Paris Lyon", false) ∧
      ("Paris Lyon" : String) ≠ "Paris-Lyon" :=
  ⟨by decide, rfl, by decide⟩

/-- C6 (amended): a name of the reference list is returned unchanged by the
corrector provided it scores `100` against itself and every other list
element scores strictly below `100` against it (in particular re-running
the correction on such canonical values is a no-op). -/
theorem canonical_fixed_of_unique_best (scorer : String → String → ℕ)
    (n : String) (top : List String) (hmem : n ∈ top)
    (hself : scorer n n = 100)
    (hother : ∀ c ∈ top, c ≠ n → scorer n c < 100) :
    correct_station_from_top scorer (some n) top 75 = .ok (some n, false) := by
  obtain ⟨m, s, he, hm, hs, hdom⟩ :=
    extractOne_spec scorer n top (by rintro rfl; cases hmem)
  have h100 : 100 ≤ s := hself ▸ hdom n hmem
  have hmn : m = n := by
    by_contra hne
    have hlt := hother m hm hne
    omega
  subst hmn
  have h75 : 75 ≤ s := by omega
  have hd : decide (s < 75) = false := decide_eq_false (Nat.not_lt.mpr h75)
  simp [correct_station_from_top, he, h75, hd]

theorem canonical_fixed_witness :
    ("Paris" ∈ ["Paris", "Lyon"]) ∧
      correct_station_from_top exactScorer (some "Paris") ["Paris", "Lyon"] 75 =
        .ok (some "Paris", false) :=
  ⟨by decide,
    canonical_fixed_of_unique_best exactScorer "Paris" ["Paris", "Lyon"]
      (by decide) (by decide) (by decide)⟩

/-- C7: the significant-delay flag is `1` exactly when the average arrival
delay exceeds 15 minutes; at delay 20 it is `1` and at delay 10 it is `0`. -/
theorem significantly_delayed_iff :
    (∀ d : ℚ, is_Significantly_Delayed d = 1 ↔ 15 < d) ∧
      is_Significantly_Delayed 20 = 1 ∧ is_Significantly_Delayed 10 = 0 := by
  refine ⟨fun d => ?_, by norm_num [is_Significantly_Delayed],
    by norm_num [is_Significantly_Delayed]⟩
  by_cases h : (15 : ℚ) < d <;> simp [is_Significantly_Delayed, h]

/-- C8: evaluation showing that the log line fires exactly when NO
correction happens, the opposite of the claim: with best score `0` the
value is left unchanged yet the log line prints, and with best score `100`
the value is replaced and nothing prints. -/
theorem log_fires_without_correction :
    correct_station_from_top exactScorer (some "Aaa") ["Bbb"] 75 =
      .ok (some "Aaa", true) ∧
    correct_station_from_top normScorer (some "Paris-Lyon") ["Paris Lyon"] 75 =
      .ok (some "Paris Lyon", false) :=
  ⟨rfl, rfl⟩

/-- C10: closure of the corrector: the returned value is either the input
itself or an element of the reference list, never a name outside that
union. -/
theorem correction_closure (scorer : String → String → ℕ)
    (name : Option String) (top : List String) (v : Option String) (b : Bool)
    (h : correct_station_from_top scorer name top 75 = .ok (v, b)) :
    v = name ∨ ∃ m ∈ top, v = some m := by
  cases name with
  | none =>
    left
    simp only [correct_station_from_top, Except.ok.injEq, Prod.mk.injEq] at h
    exact h.1.symm
  | some n =>
    rcases he : extractOne scorer n top with _ | ⟨m, s⟩
    · rw [correct_station_from_top, he] at h
      exact Except.noConfusion h
    · have htop : top ≠ [] := by
        rintro rfl
        rw [extractOne] at he
        exact Option.noConfusion he
      obtain ⟨m', s', he', hm', _, _⟩ := extractOne_spec scorer n top htop
      rw [he] at he'
      injection he' with he2
      injection he2 with hm2 hs2
      subst hm2
      subst hs2
      rw [correct_station_from_top, he] at h
      injection h with h2
      rw [Prod.mk.injEq] at h2
      obtain ⟨hv, -⟩ := h2
      by_cases h75 : 75 ≤ s
      · right
        exact ⟨m, hm', by rw [← hv, if_pos h75]⟩
      · left
        rw [← hv, if_neg h75]

theorem correction_closure_witness :
    (some "Aaa" : Option String) = some "Aaa" ∨
      ∃ m ∈ ["Bbb"], (some "Aaa" : Option String) = some m :=
  correction_closure exactScorer (some "Aaa") ["Bbb"] (some "Aaa") true rfl

end Tardis
